import Mathlib

set_option maxRecDepth 100000

/-!
Verification of the VoteX zero-knowledge proof subsystem.

This file gives a shallow embedding of the two implementations of the
Pedersen-commitment / dual-base Schnorr subsystem:

* the on-chain verifier `ZKProofVerifier.sol` (contract `ZKProofVerifier`),
  embedded in namespace `ZK`;
* the off-chain TypeScript client (`ECUtils`, `VoteCrypto`, `VoteProof`),
  embedded in namespace `Client`.

Machine integers are embedded as `Nat` (all Solidity arithmetic in the
sources is `addmod`/`mulmod` or checked arithmetic on `uint256`; all
TypeScript arithmetic is on `bigint`).  Reverts / thrown exceptions are
embedded as `none` of an `Option` result.  The Keccak-256 primitive is an
external library on both sides (the EVM `keccak256` builtin and
`@noble/hashes` `keccak_256`); functions that hash are therefore
parameterised by the digest function `kec : List Nat → Nat` (the digest
interpreted as a big-endian integer), which both implementations share.
-/

namespace ZK

/-- Curve prime modulus P of bn128 (alt_bn128), from `ZKProofVerifier.sol`. -/
def P : Nat := 0x30644e72e131a029b85045b68181585d97816a916871ca8d3c208c16d87cfd47

/-- Group order N of bn128 G1, from `ZKProofVerifier.sol`. -/
def N : Nat := 0x30644e72e131a029b85045b68181585d2833e84879b9709143e1f593f0000001

/-- Curve coefficient b = 3 of bn128, from `ZKProofVerifier.sol`. -/
def B : Nat := 3

/-- A G1 point: a pair of `uint256` coordinates (`struct G1Point`). -/
abbrev Point := Nat × Nat

/-- The base point G = (1, 2) (`getG1` / constants `G1_X`, `G1_Y`). -/
def G1 : Point := (1, 2)

/-- The auxiliary point H, coordinates fixed in the constructor of
`ZKProofVerifier` (and identically in `VoteCrypto.H_X`/`H_Y`). -/
def Hpt : Point :=
  (0x26d54f2fc05f6c2317596cefcb2ab3d23119b28b91cfb8e29cf991ed30dedc91,
   0x20fb6823bbd8388fec2202f1062cac2f39849868bc381634587e4d5e1c80cb85)

/-- Big-endian value of a byte list (most significant byte first). -/
def beVal (l : List Nat) : Nat := l.foldl (fun acc b => acc * 256 + b) 0

/-- The `n`-byte big-endian encoding of `v` (truncating to the low
`8*n` bits, as a 32-byte EVM word / `mstore` does). -/
def beBytes (n v : Nat) : List Nat :=
  (List.range n).map fun i => v / 256 ^ (n - 1 - i) % 256

/-- The 32-byte word at word-index `i` of calldata `proof`
(`calldataload(proof.offset + 32*i)`); bytes past the end read as 0. -/
def word (proof : List Nat) (i : Nat) : Nat :=
  beVal ((List.range 32).map fun j => proof.getD (32 * i + j) 0)

/-- Fast modular exponentiation, the square-and-multiply `while` loop of
`ZKProofVerifier.modInv`; structural on a fuel argument (256 iterations
cover any exponent below 2^256). -/
def powModGo : Nat → Nat → Nat → Nat → Nat → Nat
  | 0, _, _, _, result => result
  | fuel + 1, base, power, m, result =>
    if power = 0 then result
    else
      powModGo fuel (base * base % m) (power / 2) m
        (if power % 2 = 1 then result * base % m else result)

/-- `ZKProofVerifier.modInv`: inverse of `a` modulo `m` by exponentiation
to `m - 2`; reverts (`none`) when `a ≡ 0 (mod m)`. -/
def modInv (a m : Nat) : Option Nat :=
  if a = 0 then none
  else
    let a' := a % m
    if a' = 0 then none
    else some (powModGo 256 a' (m - 2) m 1)

/-- Field inverse modulo `P` by Fermat exponentiation (total; callers
establish the argument is nonzero mod `P`). -/
def fInv (a : Nat) : Nat := powModGo 256 (a % P) (P - 2) P 1

/-- Modelled from the spec: the mathematical doubling step of the
chord-tangent group law on y² = x³ + 3 over F_P, as computed by the EVM
alt_bn128 precompiles and by the `@noble/curves` bn254 library (both are
external primitives, not repository code). -/
def pointDouble (p : Point) : Point :=
  if p.2 % P = 0 then (0, 0)
  else
    let lam := 3 * (p.1 * p.1 % P) % P * fInv (2 * p.2 % P) % P
    let rx := (lam * lam % P + (P - 2 * p.1 % P)) % P
    let ry := (lam * ((p.1 % P + (P - rx)) % P) % P + (P - p.2 % P)) % P
    (rx, ry)

/-- Modelled from the spec: the mathematical chord-tangent addition on
y² = x³ + 3 over F_P ((0,0) encodes the point at infinity), as computed
by the EVM alt_bn128 add precompile and by `@noble/curves` bn254 `add`. -/
def pointAdd (p q : Point) : Point :=
  if p = (0, 0) then q
  else if q = (0, 0) then p
  else if p.1 % P = q.1 % P then
    if (p.2 + q.2) % P = 0 then (0, 0) else pointDouble p
  else
    let lam := ((p.2 % P + (P - q.2 % P)) % P) * fInv ((p.1 % P + (P - q.1 % P)) % P) % P
    let rx := (lam * lam % P + (P - (p.1 % P + q.1 % P) % P)) % P
    let ry := (lam * ((p.1 % P + (P - rx)) % P) % P + (P - p.2 % P)) % P
    (rx, ry)

/-- Modelled from the spec: binary double-and-add scan over the scalar's
bits (the scalar multiplication computed by the EVM alt_bn128 mul
precompile and by `@noble/curves` `multiply`); structural on fuel. -/
def scalarMulGo : Nat → Nat → Point → Point → Point
  | 0, _, _, acc => acc
  | fuel + 1, k, base, acc =>
    if k = 0 then acc
    else
      scalarMulGo fuel (k / 2) (pointDouble base)
        (if k % 2 = 1 then pointAdd acc base else acc)

/-- Modelled from the spec: `[k]p` on bn128 G1 (256 bits of fuel cover
any `uint256` scalar). -/
def scalarMul (k : Nat) (p : Point) : Point := scalarMulGo 256 k p (0, 0)

/-- `ZKProofVerifier.isOnCurve`: range-check both coordinates against P,
then check y² ≡ x³ + B (mod P). -/
def isOnCurve (x y : Nat) : Bool :=
  if x ≥ P ∨ y ≥ P then false
  else y * y % P = (x * x % P * x % P + B) % P

/-- The curve-equation check of `validateProofComponents` (assembly):
`eq(yy, addmod(xxx, B, P))` with no separate range check. -/
def curveEq (x y : Nat) : Bool :=
  y * y % P = (x * x % P * x % P + B) % P

/-- Modelled from the spec: the EVM alt_bn128 add precompile at address
0x6; it fails (`none`, hence `require(success)` reverts) unless both
inputs are valid encodings — coordinates below P and either the infinity
encoding (0,0) or a point on the curve. -/
def bn128Add (p q : Point) : Option Point :=
  if (p = (0, 0) ∨ isOnCurve p.1 p.2) ∧ (q = (0, 0) ∨ isOnCurve q.1 q.2) then
    some (pointAdd p q)
  else none

/-- Modelled from the spec: the EVM alt_bn128 mul precompile at address
0x7, with the same input-validity condition. -/
def bn128Mul (p : Point) (k : Nat) : Option Point :=
  if p = (0, 0) ∨ isOnCurve p.1 p.2 then some (scalarMul k p) else none

/-- `ZKProofVerifier.ecDouble`.  The final `P - p.y` is checked `uint256`
subtraction, so an input with `p.y > P` reverts (underflow panic); the
`modInv` call reverts when `2·p.y ≡ 0 (mod P)`. -/
def ecDouble (p : Point) : Option Point :=
  if (p.1 = 0 ∧ p.2 = 0) ∨ p.2 = 0 then some (0, 0)
  else
    let xCubed := p.1 * p.1 % P * p.1 % P
    let doubleY := (p.2 + p.2) % P
    match modInv doubleY P with
    | none => none
    | some dyInv =>
      let s := 3 * xCubed % P * dyInv % P
      let doublePx := (p.1 + p.1) % P
      let rx := (s * s % P + (P - doublePx)) % P
      if p.2 > P then none
      else
        let ry := (s * ((p.1 + (P - rx)) % P) % P + (P - p.2)) % P
        some (rx, ry)

/-- `ZKProofVerifier.ecAdd`: identity short-circuits, equal-point
doubling, additive-inverse short-circuit, then the add precompile. -/
def ecAdd (p1 p2 : Point) : Option Point :=
  if p1.1 = 0 ∧ p1.2 = 0 then some p2
  else if p2.1 = 0 ∧ p2.2 = 0 then some p1
  else if p1.1 = p2.1 ∧ p1.2 = p2.2 then ecDouble p1
  else if p1.1 = p2.1 ∧ p1.2 ≠ p2.2 then some (0, 0)
  else bn128Add p1 p2

/-- `ZKProofVerifier.ecMul`: early returns for zero / unit scalars and
the infinity input, reduction of the scalar mod N, an on-curve
`require` on the input, the mul precompile, and an on-curve `require`
on the result. -/
def ecMul (p : Point) (scalar : Nat) : Option Point :=
  if scalar = 0 ∨ (p.1 = 0 ∧ p.2 = 0) then some (0, 0)
  else if scalar = 1 then some p
  else
    let scalarModN := scalar % N
    if scalarModN = 0 then some (0, 0)
    else if scalarModN = 1 then some p
    else if ¬ isOnCurve p.1 p.2 then none
    else
      match bn128Mul p scalarModN with
      | none => none
      | some r => if isOnCurve r.1 r.2 then some r else none

/-- `ZKProofVerifier.extractProofComponents`: requires length 192, loads
the six 32-byte words, and reverts unless both points' coordinates are
below P and both scalars are below N (checked in that order, before any
group arithmetic). -/
def extractProofComponents (proof : List Nat) :
    Option (Point × Point × Nat × Nat) :=
  if proof.length ≠ 192 then none
  else
    let x := word proof 0
    let y := word proof 1
    if ¬ (x < P ∧ y < P) then none
    else
      let x2 := word proof 2
      let y2 := word proof 3
      if ¬ (x2 < P ∧ y2 < P) then none
      else
        let s := word proof 4
        let sPrime := word proof 5
        if ¬ (s < N ∧ sPrime < N) then none
        else some ((x, y), (x2, y2), s, sPrime)

/-- The 160-byte challenge transcript laid out by the assembly block of
`ZKProofVerifier.computeChallenge`: R.x, R.y, C.x, C.y, voteId, each a
32-byte big-endian word (`mstore` stores the low 256 bits big-endian). -/
def serializeChallenge (r c : Point) (voteId : Nat) : List Nat :=
  beBytes 32 r.1 ++ beBytes 32 r.2 ++ beBytes 32 c.1 ++ beBytes 32 c.2 ++
    beBytes 32 voteId

/-- The digest post-processing of `ZKProofVerifier.computeChallenge`:
`return uint256(preHash) % N;` (no further adjustment). -/
def challengeReduce (digest : Nat) : Nat := digest % N

/-- `ZKProofVerifier.computeChallenge`, parameterised by the Keccak-256
primitive `kec` (digest read as a big-endian integer). -/
def computeChallenge (kec : List Nat → Nat) (r c : Point) (voteId : Nat) :
    Nat :=
  challengeReduce (kec (serializeChallenge r c voteId))

/-- `ZKProofVerifier.computeVerificationEquation`: left = sG + s'H,
right = R + eC (any failing `require` in `ecMul`/`ecAdd` reverts). -/
def computeVerificationEquation (s sPrime : Nat) (r c : Point) (e : Nat) :
    Option (Point × Point) := do
  let sG ← ecMul G1 s
  let sPrimeH ← ecMul Hpt sPrime
  let left ← ecAdd sG sPrimeH
  let eC ← ecMul c e
  let right ← ecAdd r eC
  pure (left, right)

/-- `ZKProofVerifier.verifyVoteProof`, parameterised by the Keccak-256
primitive: input `require`, component extraction, on-curve validation
(`validateProofComponents`), challenge derivation, and the coordinatewise
comparison of the two sides of the verification equation.  `none` is a
revert; `some b` is a returned boolean. -/
def verifyVoteProof (kec : List Nat → Nat) (proof : List Nat)
    (voteId : Nat) : Option Bool :=
  if ¬ (proof.length = 192 ∧ voteId ≠ 0) then none
  else
    match extractProofComponents proof with
    | none => none
    | some (commPoint, r, s, sPrime) =>
      if ¬ curveEq commPoint.1 commPoint.2 then none
      else if ¬ curveEq r.1 r.2 then none
      else
        let e := computeChallenge kec r commPoint voteId
        match computeVerificationEquation s sPrime r commPoint e with
        | none => none
        | some (left, right) =>
          some (decide (left.1 = right.1 ∧ left.2 = right.2))

end ZK

namespace Client

/-- The step of the hex-digit accumulation loop behind JavaScript
`v.toString(16)` as used by `ECUtils.encodeBigIntToBytes`: peel base-16
digits from the least-significant end; structural on fuel (64 hex digits
cover every value below 2^256, the range of all call sites). -/
def hexGo : Nat → Nat → List Nat → List Nat
  | 0, _, acc => acc
  | fuel + 1, v, acc =>
    if v = 0 then acc else hexGo fuel (v / 16) (v % 16 :: acc)

/-- The hex-digit list of `v.toString(16)` (value of each digit): no
leading zeros, and the single digit 0 for v = 0. -/
def natToHex (v : Nat) : List Nat :=
  if v = 0 then [0] else hexGo 64 v []

/-- `padStart(64, '0')` on a digit list. -/
def padTo (k : Nat) (l : List Nat) : List Nat :=
  List.replicate (k - l.length) 0 ++ l

/-- `ECUtils.encodeBigIntToBytes`: format `v` as 64 hex digits
(`toString(16).padStart(64, '0')`) and parse consecutive digit pairs
into 32 bytes. -/
def encodeBigIntToBytes (v : Nat) : List Nat :=
  let padded := padTo 64 (natToHex v)
  (List.range 32).map fun i => 16 * padded.getD (2 * i) 0 + padded.getD (2 * i + 1) 0

/-- `ECUtils.isOnCurve` on affine coordinates: range check against P,
then y² ≡ x³ + B (mod P) (coordinates are non-negative in the `Nat`
embedding, matching the `x < 0` checks trivially). -/
def isOnCurve (p : ZK.Point) : Bool :=
  if p.1 ≥ ZK.P ∨ p.2 ≥ ZK.P then false
  else p.2 * p.2 % ZK.P = ((p.1 * p.1 % ZK.P) * p.1 % ZK.P + ZK.B) % ZK.P

/-- The 160-byte transcript built by `ECUtils.computeChallenge`:
R.x, R.y, C.x, C.y, voteId, each through `encodeBigIntToBytes`. -/
def serializeChallenge (r c : ZK.Point) (voteId : Nat) : List Nat :=
  encodeBigIntToBytes r.1 ++ encodeBigIntToBytes r.2 ++
    encodeBigIntToBytes c.1 ++ encodeBigIntToBytes c.2 ++
    encodeBigIntToBytes voteId

/-- The digest post-processing of `ECUtils.computeChallenge`:
reduce modulo N and replace 0 by 1. -/
def challengeReduce (digest : Nat) : Nat :=
  let e := digest % ZK.N
  if e = 0 then 1 else e

/-- `ECUtils.computeChallenge`, parameterised by the Keccak-256
primitive; throws (`none`) when either input point is off-curve. -/
def computeChallenge (kec : List Nat → Nat) (r c : ZK.Point)
    (voteId : Nat) : Option Nat :=
  if ¬ (isOnCurve r ∧ isOnCurve c) then none
  else some (challengeReduce (kec (serializeChallenge r c voteId)))

/-- `ECUtils.bytesToBigInt`: big-endian value of the bytes, zero mapped
to 1, reduction modulo N (with the rejection-sampling threshold split of
the source), and a final guard remapping anything outside [1, N-1]
to 1. -/
def bytesToBigInt (bytes : List Nat) : Nat :=
  let num := ZK.beVal bytes
  if num = 0 then 1
  else
    let maxMultiple := (2 ^ 256 - 1) / ZK.N
    let threshold := maxMultiple * ZK.N
    let result :=
      if num ≥ threshold then
        if num % ZK.N = 0 then 1 else num % ZK.N
      else num % ZK.N
    if result = 0 ∨ result ≥ ZK.N then 1 else result

/-- Modelled from the spec: `@noble/curves` `multiply`, which computes
the mathematical scalar multiple and throws (`none`) unless the scalar
lies in [1, N-1]. -/
def nobleMul (k : Nat) (p : ZK.Point) : Option ZK.Point :=
  if 1 ≤ k ∧ k < ZK.N then some (ZK.scalarMul k p) else none

/-- `ECUtils.pointToFullBytes`: 64-byte concatenation of the 32-byte
big-endian x and y coordinates. -/
def pointToFullBytes (p : ZK.Point) : List Nat :=
  encodeBigIntToBytes p.1 ++ encodeBigIntToBytes p.2

/-- `VoteCrypto.generatePedersenCommitment` (the cache is transparent:
`bytesToNumber` is `bytesToBigInt` memoised).  A thrown error is `none`:
value ≤ 0; an adjusted value outside [1, N-1]; a blinding outside
[1, N-1] after `bytesToBigInt`; or any of vG, rH, vG + rH failing
`ECUtils.isOnCurve` (the affine encoding of the noble zero point is
(0, 0), which fails the curve equation). -/
def generatePedersenCommitment (value : Int) (blinding : List Nat) :
    Option (List Nat) :=
  if value ≤ 0 then none
  else
    let v : Nat := value.toNat
    let adjustedV := if (v : Nat) ≥ ZK.N then v % (ZK.N - 1) + 1 else v
    if adjustedV = 0 ∨ adjustedV ≥ ZK.N then none
    else
      let r := bytesToBigInt blinding
      if r = 0 ∨ r ≥ ZK.N then none
      else
        match nobleMul adjustedV ZK.G1 with
        | none => none
        | some vG =>
          if ¬ isOnCurve vG then none
          else
            match nobleMul r ZK.Hpt with
            | none => none
            | some rH =>
              if ¬ isOnCurve rH then none
              else
                let commitment := ZK.pointAdd vG rH
                if ¬ isOnCurve commitment then none
                else some (pointToFullBytes commitment)

/-- `VoteCrypto.verifyPedersenCommitment`: recompute the commitment from
the same (value, blinding) pair and compare byte strings with the
constant-time OR-of-XOR loop; any thrown error is caught and returned
as `false`. -/
def verifyPedersenCommitment (commitment : List Nat) (value : Int)
    (blinding : List Nat) : Bool :=
  match generatePedersenCommitment value blinding with
  | none => false
  | some expected =>
    if commitment.length ≠ expected.length then false
    else
      (List.zipWith (fun a b => a ^^^ b) commitment expected).foldl
        (fun acc x => acc ||| x) 0 = 0

end Client

/-- The challenge digest post-processing in the spec's words: interpret
the digest as a big-endian integer, reduce modulo N, and if the reduced
value is zero replace it by 1. -/
def specChallengeReduce (digest : Nat) : Nat :=
  if digest % ZK.N = 0 then 1 else digest % ZK.N

/-- The challenge transcript in the spec's words: R.x, R.y, C.x, C.y,
contextId, each as a 32-byte big-endian unsigned integer, in that fixed
order (160 bytes). -/
def specSerializeChallenge (r c : ZK.Point) (contextId : Nat) : List Nat :=
  ZK.beBytes 32 r.1 ++ ZK.beBytes 32 r.2 ++ ZK.beBytes 32 c.1 ++
    ZK.beBytes 32 c.2 ++ ZK.beBytes 32 contextId

section HexLemmas

/-- Accumulator of the hex-digit loop splits off as an append. -/
lemma hexGo_append (fuel : Nat) : ∀ (v : Nat) (acc : List Nat),
    Client.hexGo fuel v acc = Client.hexGo fuel v [] ++ acc := by
  induction fuel with
  | zero => intro v acc; simp [Client.hexGo]
  | succ fuel ih =>
    intro v acc
    by_cases hv : v = 0
    · simp [Client.hexGo, hv]
    · rw [Client.hexGo, Client.hexGo, if_neg hv, if_neg hv, ih (v / 16) [v % 16],
        ih (v / 16) (v % 16 :: acc)]
      simp

/-- The hex-digit loop produces at most `fuel` digits. -/
lemma hexGo_length (fuel : Nat) : ∀ v : Nat,
    (Client.hexGo fuel v []).length ≤ fuel := by
  induction fuel with
  | zero => intro v; simp [Client.hexGo]
  | succ fuel ih =>
    intro v
    by_cases hv : v = 0
    · simp [Client.hexGo, hv]
    · rw [Client.hexGo, if_neg hv, hexGo_append]
      have := ih (v / 16)
      simp only [List.length_append, List.length_singleton]
      omega

/-- Padding the hex digits of `v < 16 ^ fuel` to `fuel` digits yields
exactly the big-endian base-16 digit list of `v`. -/
lemma padTo_hexGo (fuel : Nat) : ∀ v : Nat, v < 16 ^ fuel →
    Client.padTo fuel (Client.hexGo fuel v []) =
      (List.range fuel).map fun j => v / 16 ^ (fuel - 1 - j) % 16 := by
  induction fuel with
  | zero =>
    intro v hv
    interval_cases v
    simp [Client.hexGo, Client.padTo]
  | succ fuel ih =>
    intro v hv
    by_cases hv0 : v = 0
    · subst hv0
      have h0 : Client.hexGo (fuel + 1) 0 [] = [] := by simp [Client.hexGo]
      rw [h0]
      have h1 : Client.padTo (fuel + 1) [] = List.replicate (fuel + 1) 0 := by
        simp [Client.padTo]
      rw [h1]
      simp only [Nat.zero_div, Nat.zero_mod]
      rw [List.map_const', List.length_range]
    · rw [Client.hexGo, if_neg hv0, hexGo_append]
      have hlen : (Client.hexGo fuel (v / 16) []).length ≤ fuel :=
        hexGo_length fuel (v / 16)
      have hvdiv : v / 16 < 16 ^ fuel := by
        have h16 : (16:Nat) ^ (fuel + 1) = 16 ^ fuel * 16 := by ring
        omega
      have hpad := ih (v / 16) hvdiv
      have hmapeq : ((List.range fuel).map fun j => v / 16 ^ (fuel + 1 - 1 - j) % 16)
          = (List.range fuel).map fun j => v / 16 / 16 ^ (fuel - 1 - j) % 16 := by
        apply List.map_congr_left
        intro j hj
        have hjlt : j < fuel := List.mem_range.mp hj
        have hstep : (16:Nat) ^ (fuel + 1 - 1 - j) = 16 * 16 ^ (fuel - 1 - j) := by
          have he : fuel + 1 - 1 - j = (fuel - 1 - j) + 1 := by omega
          rw [he, pow_succ]
          ring
        rw [hstep, ← Nat.div_div_eq_div_mul]
      unfold Client.padTo at hpad ⊢
      simp only [List.length_append, List.length_singleton]
      have hsub : fuel + 1 - ((Client.hexGo fuel (v / 16) []).length + 1) =
          fuel - (Client.hexGo fuel (v / 16) []).length := by omega
      rw [hsub, List.range_succ, List.map_append, hmapeq, ← hpad]
      have htail : ((List.map (fun j => v / 16 ^ (fuel + 1 - 1 - j) % 16)) [fuel])
          = [v % 16] := by
        simp
      rw [htail, ← List.append_assoc]

/-- For values below `2 ^ 256` (all call sites), `encodeBigIntToBytes`
is the 32-byte big-endian encoding. -/
lemma encodeBigIntToBytes_eq_beBytes (v : Nat) (hv : v < 2 ^ 256) :
    Client.encodeBigIntToBytes v = ZK.beBytes 32 v := by
  have hv16 : v < 16 ^ 64 := by norm_num at hv ⊢; omega
  have hpad : Client.padTo 64 (Client.natToHex v) =
      (List.range 64).map fun j => v / 16 ^ (63 - j) % 16 := by
    unfold Client.natToHex
    by_cases hv0 : v = 0
    · subst hv0
      rw [if_pos rfl]
      have hp : Client.padTo 64 [0] = List.replicate 64 0 := by
        simp [Client.padTo]
      rw [hp]
      simp only [Nat.zero_div, Nat.zero_mod]
      rw [List.map_const', List.length_range]
    · rw [if_neg hv0]
      have h := padTo_hexGo 64 v hv16
      rw [show (64:Nat) - 1 = 63 from by norm_num] at h
      exact h
  unfold Client.encodeBigIntToBytes ZK.beBytes
  rw [hpad]
  apply List.map_congr_left
  intro i hi
  have hilt : i < 32 := List.mem_range.mp hi
  have hget : ∀ j, j < 64 →
      (((List.range 64).map fun j => v / 16 ^ (63 - j) % 16).getD j 0) =
        v / 16 ^ (63 - j) % 16 := by
    intro j hj
    rw [List.getD_eq_getElem _ _ (by simpa using hj)]
    simp
  rw [hget (2 * i) (by omega), hget (2 * i + 1) (by omega)]
  have h0 : 63 - (2 * i + 1) = 62 - 2 * i := by omega
  have h1 : 63 - 2 * i = (62 - 2 * i) + 1 := by omega
  have h2 : v / 16 ^ (63 - 2 * i) = v / 16 ^ (62 - 2 * i) / 16 := by
    rw [h1, pow_succ, ← Nat.div_div_eq_div_mul]
  have h3 : (256:Nat) ^ (32 - 1 - i) = 16 ^ (62 - 2 * i) := by
    have h256 : (256:Nat) = 16 ^ 2 := by norm_num
    rw [h256, ← pow_mul]
    congr 1
    omega
  rw [h0, h2, h3]
  generalize v / 16 ^ (62 - 2 * i) = u
  omega

end HexLemmas

section Helpers

/-- `ECUtils.bytesToBigInt` always lands in [1, N-1]: every branch ends
behind the final guard remapping 0 and anything ≥ N to 1. -/
lemma bytesToBigInt_range (bytes : List Nat) :
    Client.bytesToBigInt bytes ≠ 0 ∧ Client.bytesToBigInt bytes < ZK.N := by
  have hN : 1 < ZK.N := by norm_num [ZK.N]
  have hm : ZK.beVal bytes % ZK.N < ZK.N := Nat.mod_lt _ (by omega)
  simp only [Client.bytesToBigInt]
  split_ifs <;> omega

/-- A byte string whose big-endian value is divisible by N is remapped
to the scalar 1 by `ECUtils.bytesToBigInt`. -/
lemma bytesToBigInt_of_dvd (bytes : List Nat)
    (h : ZK.beVal bytes % ZK.N = 0) : Client.bytesToBigInt bytes = 1 := by
  have hN : 1 < ZK.N := by norm_num [ZK.N]
  simp only [Client.bytesToBigInt]
  split_ifs <;> omega

/-- OR-ing a string of zeros onto 0 stays 0. -/
lemma orFold_replicate_zero (n : Nat) :
    (List.replicate n 0).foldl (fun acc x => acc ||| x) 0 = 0 := by
  induction n with
  | zero => rfl
  | succ n ih => simpa [List.replicate_succ] using ih

/-- The constant-time comparison loop returns 0 on two identical byte
strings: each XOR is 0 and OR-ing zeros onto 0 stays 0. -/
lemma xorFold_self (l : List Nat) :
    (List.zipWith (fun a b => a ^^^ b) l l).foldl (fun acc x => acc ||| x) 0 = 0 := by
  have hz : List.zipWith (fun a b => a ^^^ b) l l = List.replicate l.length 0 := by
    induction l with
    | nil => rfl
    | cons a l ih => simp [List.zipWith_cons_cons, ih, Nat.xor_self, List.replicate_succ]
  rw [hz]
  exact orFold_replicate_zero l.length

end Helpers


section ClaimC10

/-- Claim C10: for every input byte array, `ECUtils.bytesToBigInt`
returns a value in [1, N-1] — it never returns 0 (a zero or N-divisible
input is remapped to 1) and never returns a value ≥ N. -/
theorem bytesToBigInt_in_range (bytes : List Nat) :
    Client.bytesToBigInt bytes ≠ 0 ∧ Client.bytesToBigInt bytes < ZK.N ∧
      (ZK.beVal bytes % ZK.N = 0 → Client.bytesToBigInt bytes = 1) :=
  ⟨(bytesToBigInt_range bytes).1, (bytesToBigInt_range bytes).2,
    bytesToBigInt_of_dvd bytes⟩

/-- Witness for C10 at a concrete N-divisible input: the 32-byte
big-endian encoding of N itself is remapped to 1. -/
theorem bytesToBigInt_in_range_witness :
    Client.bytesToBigInt (ZK.beBytes 32 ZK.N) = 1 :=
  (bytesToBigInt_in_range (ZK.beBytes 32 ZK.N)).2.2 (by decide)

end ClaimC10

section ClaimC9

/-- Claim C9: for every proof byte string (and any digest primitive),
the on-chain `verifyVoteProof` reverts when the supplied voteId is 0:
the initial `require(proof.length == 192 && voteId != 0)` fails, so no
boolean is ever returned. -/
theorem verifyVoteProof_zero_voteId (kec : List Nat → Nat)
    (proof : List Nat) : ZK.verifyVoteProof kec proof 0 = none := by
  unfold ZK.verifyVoteProof
  simp

end ClaimC9

section ClaimC4

/-- Component extraction reverts whenever one of the six 32-byte words
violates its range bound. -/
lemma extractProofComponents_none_of_bad (proof : List Nat)
    (h : ZK.word proof 0 ≥ ZK.P ∨ ZK.word proof 1 ≥ ZK.P ∨
         ZK.word proof 2 ≥ ZK.P ∨ ZK.word proof 3 ≥ ZK.P ∨
         ZK.word proof 4 ≥ ZK.N ∨ ZK.word proof 5 ≥ ZK.N) :
    ZK.extractProofComponents proof = none := by
  simp only [ZK.extractProofComponents]
  split_ifs with h1 h2 h3 h4 <;> try rfl
  exfalso
  push_neg at h2 h3 h4
  omega

/-- Claim C4: the on-chain verifier aborts, for every context, whenever
the input's length differs from 192 bytes, or an embedded point
coordinate is ≥ P, or an embedded scalar is ≥ N; decoding precedes all
group arithmetic in `verifyVoteProof`, so the revert happens before any
of it. -/
theorem verifyVoteProof_rejects_malformed (kec : List Nat → Nat)
    (proof : List Nat) (voteId : Nat)
    (h : proof.length ≠ 192 ∨
         ZK.word proof 0 ≥ ZK.P ∨ ZK.word proof 1 ≥ ZK.P ∨
         ZK.word proof 2 ≥ ZK.P ∨ ZK.word proof 3 ≥ ZK.P ∨
         ZK.word proof 4 ≥ ZK.N ∨ ZK.word proof 5 ≥ ZK.N) :
    ZK.verifyVoteProof kec proof voteId = none := by
  unfold ZK.verifyVoteProof
  by_cases hc : proof.length = 192 ∧ voteId ≠ 0
  · rw [if_neg (not_not_intro hc)]
    rcases h with hlen | hbad
    · exact absurd hc.1 hlen
    · rw [extractProofComponents_none_of_bad proof hbad]
  · rw [if_pos hc]

/-- Witness for C4: a 192-byte input whose first word is exactly P (an
out-of-range x-coordinate) is rejected. -/
theorem verifyVoteProof_rejects_malformed_witness :
    ZK.verifyVoteProof (fun _ => 0)
      (ZK.beBytes 32 ZK.P ++ List.replicate 160 0) 7 = none :=
  verifyVoteProof_rejects_malformed (fun _ => 0)
    (ZK.beBytes 32 ZK.P ++ List.replicate 160 0) 7
    (Or.inr (Or.inl (by decide)))

end ClaimC4

section ClaimC6

/-- Counterexample to claim C6 as stated: `ecMul` with scalar 1 returns
the input point unchecked, so an off-curve input (1,1) yields a result
that is neither the point at infinity nor on the curve, without
aborting. -/
theorem ecMul_offcurve_passthrough :
    ZK.ecMul (1, 1) 1 = some (1, 1) ∧
      ¬ (((1, 1) : ZK.Point) = (0, 0) ∨ ZK.isOnCurve 1 1 = true) :=
  ⟨rfl, by decide⟩

/-- Claim C6 (amended): whenever `ecMul p k` returns a result, that
result is the point at infinity (0,0), or satisfies `isOnCurve`, or is
the input point `p` itself (the unchecked fast path taken when k = 1 or
k mod N = 1). -/
theorem ecMul_result_on_curve_or_input (p : ZK.Point) (k : Nat)
    (r : ZK.Point) (h : ZK.ecMul p k = some r) :
    r = (0, 0) ∨ ZK.isOnCurve r.1 r.2 = true ∨ r = p := by
  simp only [ZK.ecMul] at h
  split_ifs at h with h1 h2 h3 h4 h5
  · exact Or.inl (Option.some.inj h).symm
  · exact Or.inr (Or.inr (Option.some.inj h).symm)
  · exact Or.inl (Option.some.inj h).symm
  · exact Or.inr (Or.inr (Option.some.inj h).symm)
  · cases hre : ZK.bn128Mul p (k % ZK.N) with
    | none =>
      simp only [hre] at h
      exact Option.noConfusion h
    | some q =>
      simp only [hre] at h
      split_ifs at h with h6
      exact Or.inr (Or.inl ((Option.some.inj h) ▸ h6))

/-- Witness for C6 (amended) at the fast path k = 1 on the base
point. -/
theorem ecMul_result_on_curve_or_input_witness :
    ((1, 2) : ZK.Point) = (0, 0) ∨ ZK.isOnCurve 1 2 = true ∨
      ((1, 2) : ZK.Point) = (1, 2) :=
  ecMul_result_on_curve_or_input (1, 2) 1 (1, 2) rfl

end ClaimC6

section ClaimC7

/-- Counterexample to claim C7 as stated: when one operand is the
infinity encoding (0,0), the identity short-circuit of `ecAdd` takes
precedence over the same-x-different-y clause, so the inputs (0,0) and
(0,1) — which have equal x and different y — do not return the point at
infinity. -/
theorem ecAdd_inverse_clause_overlap :
    ZK.ecAdd (0, 0) (0, 1) = some (0, 1) ∧
      some ((0, 1) : ZK.Point) ≠ some ((0, 0) : ZK.Point) :=
  ⟨rfl, by decide⟩

/-- Claim C7 (amended): `ecAdd` returns p2 when p1 is the infinity
encoding (0,0) and p1 when p2 is; when p1 = p2 it agrees with
`ecDouble p1`; and when neither operand is (0,0), equal x-coordinates
with different y-coordinates return the point at infinity (when an
operand is (0,0), the identity short-circuits take precedence). -/
theorem ecAdd_case_structure :
    (∀ p1 p2 : ZK.Point, p1 = (0, 0) → ZK.ecAdd p1 p2 = some p2) ∧
    (∀ p1 p2 : ZK.Point, p2 = (0, 0) → ZK.ecAdd p1 p2 = some p1) ∧
    (∀ p : ZK.Point, ZK.ecAdd p p = ZK.ecDouble p) ∧
    (∀ p1 p2 : ZK.Point, p1 ≠ (0, 0) → p2 ≠ (0, 0) → p1.1 = p2.1 →
      p1.2 ≠ p2.2 → ZK.ecAdd p1 p2 = some (0, 0)) := by
  refine ⟨?_, ?_, ?_, ?_⟩
  · intro p1 p2 h
    subst h
    rfl
  · intro p1 p2 h
    subst h
    unfold ZK.ecAdd
    by_cases h1 : p1.1 = 0 ∧ p1.2 = 0
    · rw [if_pos h1]
      have : p1 = ((0, 0) : ZK.Point) := Prod.ext_iff.mpr h1
      rw [this]
    · rw [if_neg h1, if_pos ⟨rfl, rfl⟩]
  · intro p
    unfold ZK.ecAdd
    by_cases h1 : p.1 = 0 ∧ p.2 = 0
    · rw [if_pos h1]
      unfold ZK.ecDouble
      rw [if_pos (Or.inl h1)]
      exact congrArg some (Prod.ext_iff.mpr h1)
    · rw [if_neg h1, if_neg h1, if_pos ⟨rfl, rfl⟩]
  · intro p1 p2 h1 h2 hx hy
    unfold ZK.ecAdd
    rw [if_neg (fun hc => h1 (Prod.ext_iff.mpr hc)),
        if_neg (fun hc => h2 (Prod.ext_iff.mpr hc)),
        if_neg (fun hc => hy hc.2), if_pos ⟨hx, hy⟩]

/-- Witness for C7 (amended), exercising each clause on concrete
points. -/
theorem ecAdd_case_structure_witness :
    ZK.ecAdd (0, 0) (5, 6) = some (5, 6) ∧
      ZK.ecAdd (5, 6) (0, 0) = some (5, 6) ∧
      ZK.ecAdd (3, 5) (3, 7) = some (0, 0) :=
  ⟨ecAdd_case_structure.1 (0, 0) (5, 6) rfl,
   ecAdd_case_structure.2.1 (5, 6) (0, 0) rfl,
   ecAdd_case_structure.2.2.2 (3, 5) (3, 7) (by decide) (by decide) rfl
     (by decide)⟩

end ClaimC7

section ClaimC5

/-- Counterexample to claim C5 as stated: a 32-byte blinding whose
big-endian value N + 2 is not below N does not make the commitment call
fail — `bytesToBigInt` silently reduces it to 2 and
`generatePedersenCommitment` succeeds. -/
theorem generatePedersenCommitment_oversize_blinding :
    ZK.beVal (ZK.beBytes 32 (ZK.N + 2)) ≥ ZK.N ∧
      (Client.generatePedersenCommitment 1
        (ZK.beBytes 32 (ZK.N + 2))).isSome = true :=
  ⟨by decide, by rfl⟩

/-- Claim C5 (amended): a committed value ≤ 0 always fails commitment
construction with an error, but a blinding byte string is never
rejected for its range — `bytesToBigInt` silently maps every blinding
into [1, N-1], so the in-range check on the blinding never aborts the
call. -/
theorem generatePedersenCommitment_scalar_policy :
    (∀ (value : Int) (blinding : List Nat), value ≤ 0 →
      Client.generatePedersenCommitment value blinding = none) ∧
    (∀ blinding : List Nat, Client.bytesToBigInt blinding ≠ 0 ∧
      Client.bytesToBigInt blinding < ZK.N) := by
  constructor
  · intro value blinding h
    unfold Client.generatePedersenCommitment
    rw [if_pos h]
  · exact bytesToBigInt_range

/-- Witness for C5 (amended) at value 0. -/
theorem generatePedersenCommitment_scalar_policy_witness :
    Client.generatePedersenCommitment 0 [] = none :=
  generatePedersenCommitment_scalar_policy.1 0 [] (by decide)

end ClaimC5

section ClaimC8

/-- Claim C8: whenever `generatePedersenCommitment` accepts a (value,
blinding) pair and produces a commitment, `verifyPedersenCommitment` of
that commitment against the same pair returns true: the recomputation
is deterministic and the constant-time comparison of identical byte
strings yields 0. -/
theorem verifyPedersenCommitment_of_generate (value : Int)
    (blinding : List Nat) (c : List Nat)
    (h : Client.generatePedersenCommitment value blinding = some c) :
    Client.verifyPedersenCommitment c value blinding = true := by
  unfold Client.verifyPedersenCommitment
  rw [h]
  simp [xorFold_self, orFold_replicate_zero]

/-- Witness for C8: committing to value 1 with the 32-byte blinding of
value 2 verifies against itself. -/
theorem verifyPedersenCommitment_of_generate_witness :
    Client.verifyPedersenCommitment
      ((Client.generatePedersenCommitment 1 (ZK.beBytes 32 2)).getD [])
      1 (ZK.beBytes 32 2) = true :=
  verifyPedersenCommitment_of_generate 1 (ZK.beBytes 32 2) _ (by rfl)

end ClaimC8

section ClaimC3

/-- Counterexample to claim C3 as stated: the on-chain digest reduction
(`return uint256(preHash) % N` in `ZKProofVerifier.computeChallenge`)
does not replace a zero residue by 1 — at the digest value N (a valid
256-bit digest) it yields the challenge 0, while the behaviour the
claim describes (and the off-chain implementation) yields 1. -/
theorem challengeReduce_zero_digest :
    ZK.challengeReduce ZK.N = 0 ∧ specChallengeReduce ZK.N = 1 ∧
      Client.challengeReduce ZK.N = 1 := by
  refine ⟨?_, ?_, ?_⟩ <;> decide

/-- Claim C3 (amended): both implementations serialize R.x, R.y, C.x,
C.y, contextId in that order as 32-byte big-endian integers (160 bytes)
and hash the same transcript; the off-chain digest reduction is
reduce-mod-N-then-replace-0-by-1 exactly as the spec states, while the
on-chain reduction is reduce-mod-N with no zero replacement. -/
theorem computeChallenge_agreement :
    (∀ (r c : ZK.Point) (ctx : Nat),
      ZK.serializeChallenge r c ctx = specSerializeChallenge r c ctx) ∧
    (∀ (r c : ZK.Point) (ctx : Nat), r.1 < 2 ^ 256 → r.2 < 2 ^ 256 →
      c.1 < 2 ^ 256 → c.2 < 2 ^ 256 → ctx < 2 ^ 256 →
      Client.serializeChallenge r c ctx = specSerializeChallenge r c ctx) ∧
    (∀ d, Client.challengeReduce d = specChallengeReduce d) ∧
    (∀ d, ZK.challengeReduce d = d % ZK.N) := by
  refine ⟨fun r c ctx => rfl, ?_, fun d => rfl, fun d => rfl⟩
  intro r c ctx h1 h2 h3 h4 h5
  unfold Client.serializeChallenge specSerializeChallenge
  rw [encodeBigIntToBytes_eq_beBytes _ h1, encodeBigIntToBytes_eq_beBytes _ h2,
      encodeBigIntToBytes_eq_beBytes _ h3, encodeBigIntToBytes_eq_beBytes _ h4,
      encodeBigIntToBytes_eq_beBytes _ h5]

/-- Witness for C3 (amended): the serialization agreement evaluated at
small concrete points. -/
theorem computeChallenge_agreement_witness :
    Client.serializeChallenge (1, 2) (3, 4) 5 =
      specSerializeChallenge (1, 2) (3, 4) 5 :=
  computeChallenge_agreement.2.1 (1, 2) (3, 4) 5 (by decide) (by decide)
    (by decide) (by decide) (by decide)

end ClaimC3
